import Mathlib

/-!
Shallow embedding of the Daybook time-tracking application core
(src/App.js, first DaybookApp component): the timer state machine,
the domain store (clients, projects, time entries), the aggregation
queries and the CSV exporter. JavaScript numbers are modelled as
rationals, timestamps as natural numbers of milliseconds, and the
two-argument toFixed rendering is implemented on rationals following
the ECMAScript rounding rule (nearest, ties pick the larger integer,
sign handled on the absolute value).
-/

namespace Daybook

/-- Status of a finalized time entry, as written by pauseTimer and stopTimer. -/
inductive Status
  | paused
  | completed
deriving DecidableEq, Repr

/-- Client record: id is the creation timestamp; name is stored trimmed. -/
structure Client where
  id : Nat
  name : String
  createdAt : Nat
deriving DecidableEq, Repr

/-- Project record: rate is a JS number, modelled as a rational. -/
structure Project where
  id : Nat
  name : String
  clientId : Nat
  rate : ℚ
  createdAt : Nat
deriving DecidableEq, Repr

/-- Immutable time entry: duration in whole seconds, date a timestamp. -/
structure TimeEntry where
  id : Nat
  projectId : Nat
  duration : Nat
  date : Nat
  status : Status
deriving DecidableEq, Repr

/-- React Native AppState values relevant to the handler in App.js. -/
inductive AppStateKind
  | active
  | inactive
  | background
deriving DecidableEq, Repr

/-- Value of a digit list read most significant first, as JS digit parsing does. -/
def natOfDigits (ds : List Char) : Nat :=
  ds.foldl (fun n c => n * 10 + (c.toNat - 48)) 0

/-- Exponent tail of a JS float literal: optional sign then digits; an
exponent marker not followed by digits contributes a factor of one, which
matches parseFloat consuming only the longest valid numeric prefix. -/
def parseExpTail (cs : List Char) : Int :=
  let signed : Int × List Char :=
    match cs with
    | '-' :: r => (-1, r)
    | '+' :: r => (1, r)
    | _ => (1, cs)
  let ds := signed.2.takeWhile Char.isDigit
  if ds.isEmpty then 0 else signed.1 * (natOfDigits ds : Int)

/-- Exponent part of a JS float literal, zero when absent. -/
def parseExp (cs : List Char) : Int :=
  match cs with
  | 'e' :: rest => parseExpTail rest
  | 'E' :: rest => parseExpTail rest
  | _ => 0

/-- Model of JS parseFloat on finite decimal input: skip leading whitespace,
optional sign, digits with optional fractional part, optional exponent;
none models NaN (no numeric prefix). The Infinity literal is not modelled:
the only caller range-checks the result against [0, 10000], so an infinite
parse and a failed parse are observationally identical there. -/
def parseFloat (s : String) : Option ℚ :=
  let cs := s.data.dropWhile Char.isWhitespace
  let signed : ℚ × List Char :=
    match cs with
    | '-' :: r => (-1, r)
    | '+' :: r => (1, r)
    | _ => (1, cs)
  let intDs := signed.2.takeWhile Char.isDigit
  let rest1 := signed.2.dropWhile Char.isDigit
  let fracSplit : List Char × List Char :=
    match rest1 with
    | '.' :: r => (r.takeWhile Char.isDigit, r.dropWhile Char.isDigit)
    | _ => ([], rest1)
  if intDs.isEmpty ∧ fracSplit.1.isEmpty then none
  else
    let mant : ℚ :=
      (natOfDigits intDs : ℚ) + (natOfDigits fracSplit.1 : ℚ) / (10 : ℚ) ^ fracSplit.1.length
    some (signed.1 * mant * (10 : ℚ) ^ parseExp fracSplit.2)

/-- Model of JS String.prototype.trim: strip whitespace from both ends,
written on the character list so that it evaluates by kernel reduction. -/
def jsTrim (s : String) : String :=
  String.mk (((s.data.dropWhile Char.isWhitespace).reverse.dropWhile
    Char.isWhitespace).reverse)

/-- Model of JS String.prototype.toLowerCase on the ASCII range, written
on the character list so that it evaluates by kernel reduction. -/
def jsToLower (s : String) : String :=
  String.mk (s.data.map Char.toLower)

/-- Left-pad a string with zeros up to the requested length. -/
def padLeftZeros (s : String) (n : Nat) : String :=
  String.mk (List.replicate (n - s.length) '0') ++ s

/-- Rounded scaled integer behind toFixed for a nonnegative rational:
the integer nearest to q * 10 ^ f, ties taking the larger integer. -/
def toFixedScaled (f : Nat) (q : ℚ) : Nat :=
  (Int.floor (q * (10 : ℚ) ^ f + 1 / 2)).toNat

/-- Digit rendering of toFixed for a nonnegative rational. -/
def toFixedNonneg (f : Nat) (q : ℚ) : String :=
  let n := toFixedScaled f q
  if f = 0 then toString n
  else toString (n / 10 ^ f) ++ "." ++ padLeftZeros (toString (n % 10 ^ f)) f

/-- Model of JS Number.prototype.toFixed on rational values: the sign is
taken out first and the absolute value is rounded to the nearest integer
multiple of 10 ^ (-f), ties away from zero, per the ECMAScript algorithm. -/
def toFixed (f : Nat) (q : ℚ) : String :=
  if q < 0 then "-" ++ toFixedNonneg f (-q) else toFixedNonneg f q

/-- Exact rational value denoted by the toFixed rendering of a nonnegative
rational: used where the code coerces the rendered string back to a number. -/
def roundTo (f : Nat) (q : ℚ) : ℚ :=
  (toFixedScaled f q : ℚ) / (10 : ℚ) ^ f

/-- Input validation switch of App.js validateInput: client and project
names must be 1 to 50 characters after trimming; a rate is valid when the
field is empty or parses to a number between 0 and 10000. -/
inductive InputType
  | client
  | project
  | rate
deriving DecidableEq, Repr

/-- Validation as in App.js validateInput(text, type), returning a boolean
as the source does. -/
def validateInput (text : String) (type : InputType) : Bool :=
  match type with
  | .client => decide (0 < (jsTrim text).length) && decide ((jsTrim text).length ≤ 50)
  | .project => decide (0 < (jsTrim text).length) && decide ((jsTrim text).length ≤ 50)
  | .rate =>
      decide (text = "") ||
        match parseFloat text with
        | some q => decide (0 ≤ q) && decide (q ≤ 10000)
        | none => false

/-- Error surfaced by the add operations: App.js reports each through
showError and leaves the collections untouched. -/
inductive AddError
  | validationError
  | duplicateError
deriving DecidableEq, Repr

/-- App.js addClient: validate the name, reject a case-insensitive
duplicate, otherwise append a client whose id and createdAt are the call
timestamp and whose name is the trimmed input. On an error the pair
carries the unchanged collection together with the error. -/
def addClient (clients : List Client) (newClient : String) (now : Nat) :
    List Client × Option AddError :=
  if !(validateInput newClient .client) then
    (clients, some .validationError)
  else if clients.any (fun client => jsToLower client.name == jsToLower (jsTrim newClient)) then
    (clients, some .duplicateError)
  else
    (clients ++ [{ id := now, name := jsTrim newClient, createdAt := now }], none)

/-- App.js addProject: validate the name, require a selected client,
validate the rate text, reject a duplicate (same client, case-insensitive
name), otherwise append a project with rate parseFloat(rateText) falling
back to 0. The clientId argument models the modal selection, none when no
client is selected (the empty string in the source). -/
def addProject (projects : List Project) (name : String) (clientId : Option Nat)
    (rateText : String) (now : Nat) : List Project × Option AddError :=
  if !(validateInput name .project) then
    (projects, some .validationError)
  else
    match clientId with
    | none => (projects, some .validationError)
    | some cid =>
        if !(validateInput rateText .rate) then
          (projects, some .validationError)
        else if projects.any (fun project =>
            project.clientId == cid && jsToLower project.name == jsToLower (jsTrim name)) then
          (projects, some .duplicateError)
        else
          let project : Project :=
            { id := now, name := jsTrim name, clientId := cid,
              rate := (parseFloat rateText).getD 0, createdAt := now }
          (projects ++ [project], none)

/-- Whole app state referenced by the timer handlers: the three
collections, the active-timer fields, the AppState ref and the
background-entry timestamp ref. -/
structure AppSt where
  clients : List Client
  projects : List Project
  timeEntries : List TimeEntry
  activeTimer : Option Nat
  currentTime : Nat
  timerStartTime : Option Nat
  appState : AppStateKind
  backgroundStartTime : Option Nat
deriving DecidableEq, Repr

/-- App.js handleAppStateChange: with an active timer, a transition from
inactive or background to active adds the whole-second wall-clock delta
since backgroundStartTime in one lump and clears the marker, and a
transition from active to inactive or background records the marker; the
AppState ref is always updated. Timestamps are milliseconds. -/
def handleAppStateChange (s : AppSt) (nextAppState : AppStateKind) (now : Nat) : AppSt :=
  let s1 :=
    if s.activeTimer.isSome then
      if (s.appState = .inactive ∨ s.appState = .background) ∧ nextAppState = .active then
        match s.backgroundStartTime with
        | some bg =>
            { s with currentTime := s.currentTime + (now - bg) / 1000,
                     backgroundStartTime := none }
        | none => s
      else if s.appState = .active ∧ (nextAppState = .inactive ∨ nextAppState = .background) then
        { s with backgroundStartTime := some now }
      else s
    else s
  { s1 with appState := nextAppState }

/-- Once-per-second interval of the timer useEffect: it exists only when a
timer is active and the AppState ref reads active, and each firing adds one
second to currentTime. -/
def tick (s : AppSt) : AppSt :=
  if s.activeTimer.isSome ∧ s.appState = .active then
    { s with currentTime := s.currentTime + 1 }
  else s

/-- App.js stopTimer: when a timer is active and currentTime is positive,
append a completed entry for it with duration currentTime; always clear
the active timer, currentTime and timerStartTime. -/
def stopTimer (s : AppSt) (now : Nat) : AppSt :=
  let s1 : AppSt :=
    match s.activeTimer with
    | some pid =>
        if 0 < s.currentTime then
          { s with timeEntries := s.timeEntries ++
              [{ id := now, projectId := pid, duration := s.currentTime,
                 date := now, status := .completed }] }
        else s
    | none => s
  { s1 with activeTimer := none, currentTime := 0, timerStartTime := none }

/-- App.js pauseTimer: identical to stopTimer except the emitted entry has
status paused. -/
def pauseTimer (s : AppSt) (now : Nat) : AppSt :=
  let s1 : AppSt :=
    match s.activeTimer with
    | some pid =>
        if 0 < s.currentTime then
          { s with timeEntries := s.timeEntries ++
              [{ id := now, projectId := pid, duration := s.currentTime,
                 date := now, status := .paused }] }
        else s
    | none => s
  { s1 with activeTimer := none, currentTime := 0, timerStartTime := none }

/-- App.js startTimer: when a different timer is active, run stopTimer
first; then make the given project active with currentTime 0 and record
the start timestamp. -/
def startTimer (s : AppSt) (projectId : Nat) (now : Nat) : AppSt :=
  let s1 :=
    if s.activeTimer.isSome ∧ s.activeTimer ≠ some projectId then
      stopTimer s now
    else s
  { s1 with activeTimer := some projectId, currentTime := 0, timerStartTime := some now }

/-- App.js getTotalHours: sum the durations of the entries of the project,
divide by 3600 and render with one decimal. -/
def getTotalHours (timeEntries : List TimeEntry) (projectId : Nat) : String :=
  let total : Nat := (timeEntries.filter (fun entry => entry.projectId == projectId)).foldl
    (fun sum entry => sum + entry.duration) 0
  toFixed 1 ((total : ℚ) / 3600)

/-- Result of getTotalEarnings: the source returns the number 0 on the
early exits and a toFixed string otherwise, so the model keeps the two JS
types apart. -/
inductive EarningsResult
  | num (q : ℚ)
  | str (s : String)
deriving DecidableEq, Repr

/-- App.js getTotalEarnings: 0 when the project is missing or its rate is
falsy, otherwise the summed hours times the rate with two decimals. -/
def getTotalEarnings (projects : List Project) (timeEntries : List TimeEntry)
    (projectId : Nat) : EarningsResult :=
  match projects.find? (fun p => p.id == projectId) with
  | none => .num 0
  | some project =>
      if project.rate = 0 then .num 0
      else
        let totalSeconds : Nat := (timeEntries.filter (fun entry => entry.projectId == projectId)).foldl
          (fun sum entry => sum + entry.duration) 0
        .str (toFixed 2 ((totalSeconds : ℚ) / 3600 * project.rate))

/-- Rendering of Status in a time entry, as serialized into the CSV. -/
def statusStr : Status → String
  | .paused => "paused"
  | .completed => "completed"

/-- CSV row of App.js exportToCSV for one entry. The date column goes
through toLocaleDateString and the rate column through JS number
stringification, both platform collaborators modelled as the abstract
functions fmtDate and numToStr. The source multiplies the two-decimal
hours STRING by the rate, coercing the string back to a number; on the
nonnegative rendered decimal this coercion is exactly roundTo 2 of the
hours, which is how the model states it. -/
def csvRow (projects : List Project) (clients : List Client)
    (fmtDate : Nat → String) (numToStr : ℚ → String) (entry : TimeEntry) : String :=
  let project := projects.find? (fun p => p.id == entry.projectId)
  let client : Option Client :=
    match project with
    | some p => clients.find? (fun c => c.id == p.clientId)
    | none => none
  let hours := toFixed 2 ((entry.duration : ℚ) / 3600)
  let hoursNum := roundTo 2 ((entry.duration : ℚ) / 3600)
  let rate : ℚ := match project with | some p => p.rate | none => 0
  let total := toFixed 2 (hoursNum * rate)
  "\"" ++ fmtDate entry.date ++ "\",\"" ++
    ((client.map Client.name).getD "Unknown") ++ "\",\"" ++
    ((project.map Project.name).getD "Unknown") ++ "\"," ++
    hours ++ "," ++ numToStr rate ++ "," ++ total ++ ",\"" ++
    statusStr entry.status ++ "\""

/-- Header row of the exported CSV. -/
def csvHeader : String := "Date,Client,Project,Duration (hours),Rate,Total,Status"

/-- App.js exportToCSV: none models the early return on an empty entry
collection; otherwise the header plus one row per entry joined by
newlines, in the stored order of the collection. -/
def exportToCSV (timeEntries : List TimeEntry) (projects : List Project)
    (clients : List Client) (fmtDate : Nat → String) (numToStr : ℚ → String) :
    Option String :=
  if timeEntries.isEmpty then none
  else
    some (csvHeader ++ "\n" ++
      String.intercalate "\n" (timeEntries.map (csvRow projects clients fmtDate numToStr)))

/-- Stored blob as seen by loadData: the key can be missing, present but
failing JSON.parse, or present with a parsed value. -/
inductive Blob (α : Type)
  | absent
  | bad
  | good (v : α)
deriving DecidableEq, Repr

/-- Parsed value of a blob, or the default when absent; never applied to a
bad blob on the success path. -/
def Blob.getOr {α : Type} (b : Blob α) (d : α) : α :=
  match b with
  | .good v => v
  | _ => d

/-- State produced by loadData; every field starts at its default. -/
structure LoadedState where
  clients : List Client := []
  projects : List Project := []
  timeEntries : List TimeEntry := []
  activeTimer : Option Nat := none
  currentTime : Nat := 0
  timerStartTime : Option Nat := none
  errorShown : Bool := false
deriving DecidableEq, Repr

/-- App.js loadData: the five AsyncStorage reads happen before any state
is set (readFails models a rejected read, which aborts with everything at
defaults); then each collection is parsed and set in turn, so a parse
failure partway leaves the collections already processed at their loaded
values and the rest at defaults; finally, when both timer markers are
present, the timer is restored with currentTime initialTime plus the
whole seconds since the persisted start. The catch handler sets the error
banner and the function never throws. -/
def loadData (readFails : Bool) (clientsData : Blob (List Client))
    (projectsData : Blob (List Project)) (entriesData : Blob (List TimeEntry))
    (activeTimerData : Blob Nat) (timerData : Blob (Nat × Nat)) (now : Nat) :
    LoadedState :=
  if readFails then { errorShown := true }
  else if clientsData = .bad then { errorShown := true }
  else if projectsData = .bad then
    { clients := clientsData.getOr [], errorShown := true }
  else if entriesData = .bad then
    { clients := clientsData.getOr [], projects := projectsData.getOr [],
      errorShown := true }
  else
    let base : LoadedState :=
      { clients := clientsData.getOr [], projects := projectsData.getOr [],
        timeEntries := entriesData.getOr [] }
    match activeTimerData, timerData with
    | .absent, _ => base
    | _, .absent => base
    | .bad, _ => { base with errorShown := true }
    | _, .bad => { base with errorShown := true }
    | .good projectId, .good (startTime, initialTime) =>
        { base with activeTimer := some projectId,
                    currentTime := initialTime + (now - startTime) / 1000,
                    timerStartTime := some startTime }

/-- Folding durations onto an accumulator is the accumulator plus the sum
of the durations. -/
lemma foldl_duration_eq_sum (l : List TimeEntry) (n : Nat) :
    l.foldl (fun sum entry => sum + entry.duration) n
      = n + (l.map TimeEntry.duration).sum := by
  induction l generalizing n with
  | nil => simp
  | cons e t ih => simp [ih, List.sum_cons]; omega

/-- Bool-level validity of a client or project name agrees with the
propositional trimmed-length bounds. -/
lemma validateInput_client_iff (text : String) :
    validateInput text .client = true ↔
      0 < (jsTrim text).length ∧ (jsTrim text).length ≤ 50 := by
  simp [validateInput]

/-- Bool-level validity of a project name agrees with the propositional
trimmed-length bounds. -/
lemma validateInput_project_iff (text : String) :
    validateInput text .project = true ↔
      0 < (jsTrim text).length ∧ (jsTrim text).length ≤ 50 := by
  simp [validateInput]

/-- Bool-level validity of a rate field agrees with the propositional
form: the field is empty or parses to a number in [0, 10000]. -/
lemma validateInput_rate_iff (text : String) :
    validateInput text .rate = true ↔
      (text = "" ∨ ∃ q, parseFloat text = some q ∧ 0 ≤ q ∧ q ≤ 10000) := by
  unfold validateInput
  cases h : parseFloat text <;> simp [h]

/-- C3: addClient rejects a trimmed name of length zero or above fifty
with a validation error, rejects a case-insensitive duplicate with a
duplicate error, and otherwise appends exactly one client carrying the
trimmed name; on either error the collection is returned unchanged, and
a fresh timestamp keeps the ids pairwise distinct. -/
theorem claim_C3_addClient_behaviour (clients : List Client) (name : String) (now : Nat) :
    (¬(0 < (jsTrim name).length ∧ (jsTrim name).length ≤ 50) →
        addClient clients name now = (clients, some .validationError)) ∧
    ((0 < (jsTrim name).length ∧ (jsTrim name).length ≤ 50) →
      (∃ c ∈ clients, jsToLower c.name = jsToLower (jsTrim name)) →
        addClient clients name now = (clients, some .duplicateError)) ∧
    ((0 < (jsTrim name).length ∧ (jsTrim name).length ≤ 50) →
      (∀ c ∈ clients, jsToLower c.name ≠ jsToLower (jsTrim name)) →
        addClient clients name now =
          (clients ++ [{ id := now, name := jsTrim name, createdAt := now }], none)) ∧
    ((∀ c ∈ clients, c.id ≠ now) → clients.Pairwise (fun a b => a.id ≠ b.id) →
        (addClient clients name now).1.Pairwise (fun a b => a.id ≠ b.id)) := by
  have hd : (clients.any fun c => jsToLower c.name == jsToLower (jsTrim name)) = true ↔
      ∃ c ∈ clients, jsToLower c.name = jsToLower (jsTrim name) := by
    simp [List.any_eq_true]
  refine ⟨fun h => ?_, fun h hdup => ?_, fun h hnodup => ?_, fun hfresh hpw => ?_⟩
  · have hvf : validateInput name .client = false := by
      rw [Bool.eq_false_iff]
      intro hc
      exact h ((validateInput_client_iff name).mp hc)
    simp [addClient, hvf]
  · have hvt := (validateInput_client_iff name).mpr h
    have hdt := hd.mpr hdup
    simp [addClient, hvt, hdt]
  · have hvt := (validateInput_client_iff name).mpr h
    have hdf : (clients.any fun c => jsToLower c.name == jsToLower (jsTrim name)) = false := by
      rw [Bool.eq_false_iff]
      intro hc
      obtain ⟨c, hc1, hc2⟩ := hd.mp hc
      exact hnodup c hc1 hc2
    simp [addClient, hvt, hdf]
  · by_cases hvt : validateInput name .client = true
    · by_cases hdt : (clients.any fun c => jsToLower c.name == jsToLower (jsTrim name)) = true
      · simpa [addClient, hvt, hdt] using hpw
      · rw [Bool.not_eq_true] at hdt
        simp only [addClient, hvt, hdt, Bool.not_true, Bool.false_eq_true, if_false]
        rw [List.pairwise_append]
        refine ⟨hpw, by simp, ?_⟩
        intro a ha b hb
        simp only [List.mem_singleton] at hb
        subst hb
        exact hfresh a ha
    · rw [Bool.not_eq_true] at hvt
      simpa [addClient, hvt] using hpw

/-- C4: addProject rejects an invalid trimmed name or a missing client
selection or an out-of-range rate text with a validation error, rejects a
case-insensitive (clientId, name) collision with a duplicate error, and
otherwise appends exactly one project whose rate is the parsed rate text
with 0 as the fallback for the empty field; on any error the collection
is returned unchanged, and a fresh timestamp keeps ids pairwise
distinct. -/
theorem claim_C4_addProject_behaviour (projects : List Project) (name : String)
    (clientId : Option Nat) (rateText : String) (now : Nat) :
    (¬(0 < (jsTrim name).length ∧ (jsTrim name).length ≤ 50) →
        addProject projects name clientId rateText now = (projects, some .validationError)) ∧
    ((0 < (jsTrim name).length ∧ (jsTrim name).length ≤ 50) → clientId = none →
        addProject projects name clientId rateText now = (projects, some .validationError)) ∧
    (∀ cid, (0 < (jsTrim name).length ∧ (jsTrim name).length ≤ 50) → clientId = some cid →
      rateText ≠ "" →
      (¬ ∃ q, parseFloat rateText = some q ∧ 0 ≤ q ∧ q ≤ 10000) →
        addProject projects name clientId rateText now = (projects, some .validationError)) ∧
    (∀ cid, (0 < (jsTrim name).length ∧ (jsTrim name).length ≤ 50) → clientId = some cid →
      (rateText = "" ∨ ∃ q, parseFloat rateText = some q ∧ 0 ≤ q ∧ q ≤ 10000) →
      (∃ p ∈ projects, p.clientId = cid ∧ jsToLower p.name = jsToLower (jsTrim name)) →
        addProject projects name clientId rateText now = (projects, some .duplicateError)) ∧
    (∀ cid, (0 < (jsTrim name).length ∧ (jsTrim name).length ≤ 50) → clientId = some cid →
      (rateText = "" ∨ ∃ q, parseFloat rateText = some q ∧ 0 ≤ q ∧ q ≤ 10000) →
      (∀ p ∈ projects, ¬(p.clientId = cid ∧ jsToLower p.name = jsToLower (jsTrim name))) →
        addProject projects name clientId rateText now =
          (projects ++
            [{ id := now, name := jsTrim name, clientId := cid,
               rate := (parseFloat rateText).getD 0, createdAt := now }], none)) ∧
    ((∀ p ∈ projects, p.id ≠ now) → projects.Pairwise (fun a b => a.id ≠ b.id) →
        (addProject projects name clientId rateText now).1.Pairwise
          (fun a b => a.id ≠ b.id)) := by
  refine ⟨fun h => ?_, fun h hcid => ?_, fun cid h hcid hne hnr => ?_,
    fun cid h hcid hr hdup => ?_, fun cid h hcid hr hnodup => ?_, fun hfresh hpw => ?_⟩
  · have hvf : validateInput name .project = false := by
      rw [Bool.eq_false_iff]
      intro hc
      exact h ((validateInput_project_iff name).mp hc)
    simp [addProject, hvf]
  · have hvt := (validateInput_project_iff name).mpr h
    subst hcid
    simp [addProject, hvt]
  · have hvt := (validateInput_project_iff name).mpr h
    subst hcid
    have hrf : validateInput rateText .rate = false := by
      rw [Bool.eq_false_iff]
      intro hc
      rcases (validateInput_rate_iff rateText).mp hc with h0 | hq
      · exact hne h0
      · exact hnr hq
    simp [addProject, hvt, hrf]
  · have hvt := (validateInput_project_iff name).mpr h
    subst hcid
    have hrt := (validateInput_rate_iff rateText).mpr hr
    have hdt : (projects.any fun p =>
        p.clientId == cid && jsToLower p.name == jsToLower (jsTrim name)) = true := by
      obtain ⟨p, hp1, hp2, hp3⟩ := hdup
      refine List.any_eq_true.mpr ⟨p, hp1, ?_⟩
      simp [hp2, hp3]
    simp [addProject, hvt, hrt, hdt]
  · have hvt := (validateInput_project_iff name).mpr h
    subst hcid
    have hrt := (validateInput_rate_iff rateText).mpr hr
    have hdf : (projects.any fun p =>
        p.clientId == cid && jsToLower p.name == jsToLower (jsTrim name)) = false := by
      rw [Bool.eq_false_iff]
      intro hc
      obtain ⟨p, hp1, hp2⟩ := List.any_eq_true.mp hc
      simp only [Bool.and_eq_true, beq_iff_eq] at hp2
      exact hnodup p hp1 hp2
    simp [addProject, hvt, hrt, hdf]
  · rcases clientId with _ | cid
    · cases hvt : validateInput name .project <;>
        simpa [addProject, hvt] using hpw
    · by_cases hvt : validateInput name .project = true
      · by_cases hrt : validateInput rateText .rate = true
        · by_cases hdt : (projects.any fun p =>
              p.clientId == cid && jsToLower p.name == jsToLower (jsTrim name)) = true
          · simpa [addProject, hvt, hrt, hdt] using hpw
          · rw [Bool.not_eq_true] at hdt
            simp only [addProject, hvt, hrt, hdt, Bool.not_true, Bool.false_eq_true,
              if_false]
            rw [List.pairwise_append]
            refine ⟨hpw, by simp, ?_⟩
            intro a ha b hb
            simp only [List.mem_singleton] at hb
            subst hb
            exact hfresh a ha
        · rw [Bool.not_eq_true] at hrt
          simpa [addProject, hvt, hrt] using hpw
      · rw [Bool.not_eq_true] at hvt
        simpa [addProject, hvt] using hpw

/-- Concrete parse used by the domain-store witness: the rate text 50
parses to the rational 50. -/
lemma parseFloat_fifty : parseFloat "50" = some 50 := by
  simp [parseFloat, natOfDigits, parseExp, List.dropWhile, List.takeWhile]

/-- Witness for C3: Scenario E, adding Acme succeeds, adding acme next to
it fails with the duplicate error, and an empty name fails validation. -/
theorem claim_C3_addClient_behaviour_witness :
    addClient [] "Acme" 100 = ([{ id := 100, name := "Acme", createdAt := 100 }], none) ∧
    addClient [{ id := 100, name := "Acme", createdAt := 100 }] "acme" 200 =
      ([{ id := 100, name := "Acme", createdAt := 100 }], some .duplicateError) ∧
    addClient [] "" 300 = ([], some .validationError) := by
  refine ⟨?_, ?_, ?_⟩
  · have h := (claim_C3_addClient_behaviour [] "Acme" 100).2.2.1 (by decide) (by decide)
    simpa using h
  · have h := (claim_C3_addClient_behaviour
        [{ id := 100, name := "Acme", createdAt := 100 }] "acme" 200).2.1 (by decide)
      ⟨{ id := 100, name := "Acme", createdAt := 100 }, by decide, by decide⟩
    simpa using h
  · exact (claim_C3_addClient_behaviour [] "" 300).1 (by decide)

/-- Witness for C4: a valid project with rate text 50 is appended with
rate 50, and a missing client selection fails validation. -/
theorem claim_C4_addProject_behaviour_witness :
    addProject [] "Website" (some 1) "50" 400 =
      ([{ id := 400, name := "Website", clientId := 1, rate := 50,
          createdAt := 400 }], none) ∧
    addProject [] "Website" none "50" 400 = ([], some .validationError) := by
  constructor
  · have h := (claim_C4_addProject_behaviour [] "Website" (some 1) "50" 400).2.2.2.2.1
      1 (by decide) rfl
      (Or.inr ⟨50, parseFloat_fifty, by norm_num, by norm_num⟩) (by simp)
    simpa [parseFloat_fifty] using h
  · exact (claim_C4_addProject_behaviour [] "Website" none "50" 400).2.1 (by decide) rfl

/-- C1: for a running timer, a foreground-to-background transition
followed by a background-to-foreground transition 300 seconds (300000
milliseconds) later increases elapsed time by exactly 300 seconds, the
per-second tick is inert on the backgrounded state, and the timer returns
to Running (active timer still set, app state active, background marker
cleared). -/
theorem claim_C1_background_reconciliation (s : AppSt) (p t : Nat)
    (hA : s.activeTimer = some p) (hF : s.appState = .active) :
    tick (handleAppStateChange s .background t) = handleAppStateChange s .background t ∧
    (handleAppStateChange (handleAppStateChange s .background t) .active
        (t + 300000)).currentTime = s.currentTime + 300 ∧
    (handleAppStateChange (handleAppStateChange s .background t) .active
        (t + 300000)).activeTimer = some p ∧
    (handleAppStateChange (handleAppStateChange s .background t) .active
        (t + 300000)).appState = .active ∧
    (handleAppStateChange (handleAppStateChange s .background t) .active
        (t + 300000)).backgroundStartTime = none := by
  refine ⟨?_, ?_, ?_, ?_, ?_⟩ <;>
    simp [handleAppStateChange, tick, hA, hF]

/-- Witness for C1 at a concrete running state. -/
theorem claim_C1_background_reconciliation_witness :
    let s : AppSt :=
      { clients := [], projects := [], timeEntries := [], activeTimer := some 7,
        currentTime := 42, timerStartTime := some 1000, appState := .active,
        backgroundStartTime := none }
    tick (handleAppStateChange s .background 5000) = handleAppStateChange s .background 5000 ∧
    (handleAppStateChange (handleAppStateChange s .background 5000) .active
        (5000 + 300000)).currentTime = s.currentTime + 300 ∧
    (handleAppStateChange (handleAppStateChange s .background 5000) .active
        (5000 + 300000)).activeTimer = some 7 ∧
    (handleAppStateChange (handleAppStateChange s .background 5000) .active
        (5000 + 300000)).appState = .active ∧
    (handleAppStateChange (handleAppStateChange s .background 5000) .active
        (5000 + 300000)).backgroundStartTime = none :=
  claim_C1_background_reconciliation _ 7 5000 rfl rfl

/-- C2: starting a timer for a different project B while project A has
accrued at least one second first appends exactly one completed entry for
A whose duration is the accrued time, and afterwards B is active with
elapsed time zero. -/
theorem claim_C2_start_switches_project (s : AppSt) (A B now : Nat)
    (hA : s.activeTimer = some A) (hE : 1 ≤ s.currentTime) (hne : B ≠ A) :
    (startTimer s B now).timeEntries = s.timeEntries ++
      [{ id := now, projectId := A, duration := s.currentTime,
         date := now, status := .completed }] ∧
    (startTimer s B now).activeTimer = some B ∧
    (startTimer s B now).currentTime = 0 := by
  have hAB : s.activeTimer ≠ some B := by
    rw [hA]; simp [Ne.symm hne]
  refine ⟨?_, ?_, ?_⟩ <;>
    simp [startTimer, stopTimer, hA, hAB, Ne.symm hne,
      Nat.lt_of_lt_of_le Nat.zero_lt_one hE]

/-- Witness for C2 at a concrete state with 10 accrued seconds. -/
theorem claim_C2_start_switches_project_witness :
    let s : AppSt :=
      { clients := [], projects := [], timeEntries := [], activeTimer := some 1,
        currentTime := 10, timerStartTime := some 0, appState := .active,
        backgroundStartTime := none }
    (startTimer s 2 9999).timeEntries =
      [{ id := 9999, projectId := 1, duration := 10, date := 9999, status := .completed }] ∧
    (startTimer s 2 9999).activeTimer = some 2 ∧
    (startTimer s 2 9999).currentTime = 0 := by
  have h := claim_C2_start_switches_project
    { clients := [], projects := [], timeEntries := [], activeTimer := some 1,
      currentTime := 10, timerStartTime := some 0, appState := .active,
      backgroundStartTime := none } 1 2 9999 rfl (by decide) (by decide)
  simpa using h

/-- C9: pauseTimer with no active timer emits no entry and stays Idle;
with an active timer and positive elapsed time it appends exactly one
paused entry carrying the elapsed duration; and in every case it clears
the active timer and resets elapsed time to zero. -/
theorem claim_C9_pause_behaviour (s : AppSt) (now : Nat) :
    (s.activeTimer = none →
      (pauseTimer s now).timeEntries = s.timeEntries ∧
      (pauseTimer s now).activeTimer = none) ∧
    (∀ p, s.activeTimer = some p → 0 < s.currentTime →
      (pauseTimer s now).timeEntries = s.timeEntries ++
        [{ id := now, projectId := p, duration := s.currentTime,
           date := now, status := .paused }]) ∧
    (pauseTimer s now).activeTimer = none ∧
    (pauseTimer s now).currentTime = 0 := by
  refine ⟨fun h => ?_, fun p hp hc => ?_, ?_, ?_⟩ <;>
    first
      | simp [pauseTimer, h]
      | simp [pauseTimer, hp, hc]
      | (cases hA : s.activeTimer <;> simp [pauseTimer, hA])

/-- Witness for C9: both the no-timer case and the active case at
concrete states. -/
theorem claim_C9_pause_behaviour_witness :
    let idle : AppSt :=
      { clients := [], projects := [], timeEntries := [], activeTimer := none,
        currentTime := 0, timerStartTime := none, appState := .active,
        backgroundStartTime := none }
    let busy : AppSt :=
      { clients := [], projects := [], timeEntries := [], activeTimer := some 4,
        currentTime := 9, timerStartTime := some 0, appState := .active,
        backgroundStartTime := none }
    ((pauseTimer idle 77).timeEntries = [] ∧ (pauseTimer idle 77).activeTimer = none) ∧
    (pauseTimer busy 77).timeEntries =
      [{ id := 77, projectId := 4, duration := 9, date := 77, status := .paused }] ∧
    (pauseTimer busy 77).activeTimer = none ∧
    (pauseTimer busy 77).currentTime = 0 := by
  intro idle busy
  have h1 := (claim_C9_pause_behaviour idle 77).1 rfl
  have h2 := (claim_C9_pause_behaviour busy 77).2.1 4 rfl (by decide)
  have h3 := (claim_C9_pause_behaviour busy 77).2.2
  exact ⟨h1, by simpa using h2, h3⟩

/-- C10: calling startTimer for the project that is already active skips
the stop sequence: no entry is appended and the accrued elapsed time is
silently reset to zero, with the same project still active. -/
theorem claim_C10_restart_discards_elapsed (s : AppSt) (P now : Nat)
    (hA : s.activeTimer = some P) (hE : 0 < s.currentTime) :
    (startTimer s P now).timeEntries = s.timeEntries ∧
    (startTimer s P now).currentTime = 0 ∧
    (startTimer s P now).activeTimer = some P := by
  refine ⟨?_, ?_, ?_⟩ <;> simp [startTimer, hA]

/-- Concrete toFixed evaluation used by the aggregation witness: 125
seconds at rate 50 are 125/72 currency units, rendered as 1.74. -/
lemma toFixed_two_125_72 : toFixed 2 ((125 : ℚ) / 72) = "1.74" := by
  have h1 : toFixedScaled 2 ((125 : ℚ) / 72) = 174 := by
    unfold toFixedScaled
    norm_num
    rfl
  unfold toFixed toFixedNonneg
  rw [if_neg (by norm_num), h1]
  rfl

/-- C6: getTotalHours is the sum of the durations of the entries of the
project, divided by 3600, rendered with one decimal place. -/
theorem claim_C6_totalHours_sum (timeEntries : List TimeEntry) (projectId : Nat) :
    getTotalHours timeEntries projectId =
      toFixed 1 ((((timeEntries.filter fun e => e.projectId == projectId).map
        TimeEntry.duration).sum : ℚ) / 3600) := by
  unfold getTotalHours
  rw [foldl_duration_eq_sum]
  simp

/-- C5: getTotalEarnings is 0 when no project carries the id or the
project has rate 0, and otherwise renders summed seconds divided by 3600
times the rate with two decimals. -/
theorem claim_C5_totalEarnings_cases (projects : List Project)
    (timeEntries : List TimeEntry) (projectId : Nat) :
    ((∀ p ∈ projects, p.id ≠ projectId) →
        getTotalEarnings projects timeEntries projectId = .num 0) ∧
    (∀ proj, projects.find? (fun p => p.id == projectId) = some proj → proj.rate = 0 →
        getTotalEarnings projects timeEntries projectId = .num 0) ∧
    (∀ proj, projects.find? (fun p => p.id == projectId) = some proj → proj.rate ≠ 0 →
        getTotalEarnings projects timeEntries projectId = .str (toFixed 2
          ((((timeEntries.filter fun e => e.projectId == projectId).map
            TimeEntry.duration).sum : ℚ) / 3600 * proj.rate))) := by
  refine ⟨fun h => ?_, fun proj hf hr => ?_, fun proj hf hr => ?_⟩
  · have hnone : projects.find? (fun p => p.id == projectId) = none := by
      rw [List.find?_eq_none]
      intro p hp
      simp [h p hp]
    simp [getTotalEarnings, hnone]
  · simp [getTotalEarnings, hf, hr]
  · simp [getTotalEarnings, hf, hr, foldl_duration_eq_sum]

/-- Witness for C5: the Scenario A data, one 125 second completed entry
on a rate 50 project, yields the string 1.74, and a missing project
yields the number 0. -/
theorem claim_C5_totalEarnings_cases_witness :
    getTotalEarnings
      [{ id := 2, name := "Website", clientId := 1, rate := 50, createdAt := 2 }]
      [{ id := 3, projectId := 2, duration := 125, date := 3, status := .completed }] 2
      = .str "1.74" ∧
    getTotalEarnings
      [{ id := 2, name := "Website", clientId := 1, rate := 50, createdAt := 2 }]
      [{ id := 3, projectId := 2, duration := 125, date := 3, status := .completed }] 9
      = .num 0 := by
  constructor
  · have h := (claim_C5_totalEarnings_cases
        [{ id := 2, name := "Website", clientId := 1, rate := 50, createdAt := 2 }]
        [{ id := 3, projectId := 2, duration := 125, date := 3, status := .completed }]
        2).2.2
      { id := 2, name := "Website", clientId := 1, rate := 50, createdAt := 2 }
      rfl (by norm_num)
    rw [h]
    norm_num [toFixed_two_125_72]
  · exact (claim_C5_totalEarnings_cases _ _ 9).1 (by decide)

/-- Row of the exported CSV as the specification states it: resolve the
project by the entry id and the client through the project, render missing
names as the literal Unknown, render hours as duration over 3600 with two
decimals, take the rate 0 when the project is missing, and render the
total as the hours value times the rate with two decimals. -/
def csvRowSpec (projects : List Project) (clients : List Client)
    (fmtDate : Nat → String) (numToStr : ℚ → String) (entry : TimeEntry) : String :=
  let project : Option Project := projects.find? (fun p => p.id == entry.projectId)
  let clientName : String :=
    ((project.bind fun p => clients.find? (fun c => c.id == p.clientId)).map
      Client.name).getD "Unknown"
  let projectName : String := (project.map Project.name).getD "Unknown"
  let rate : ℚ := (project.map Project.rate).getD 0
  let hours : String := toFixed 2 ((entry.duration : ℚ) / 3600)
  let total : String := toFixed 2 (roundTo 2 ((entry.duration : ℚ) / 3600) * rate)
  "\"" ++ fmtDate entry.date ++ "\",\"" ++ clientName ++ "\",\"" ++ projectName ++
    "\"," ++ hours ++ "," ++ numToStr rate ++ "," ++ total ++ ",\"" ++
    statusStr entry.status ++ "\""

/-- The row built by the code agrees with the row the specification
describes, entry by entry. -/
lemma csvRow_eq_csvRowSpec (projects : List Project) (clients : List Client)
    (fmtDate : Nat → String) (numToStr : ℚ → String) (entry : TimeEntry) :
    csvRow projects clients fmtDate numToStr entry =
      csvRowSpec projects clients fmtDate numToStr entry := by
  unfold csvRow csvRowSpec
  cases hp : projects.find? (fun p => p.id == entry.projectId) <;> simp [hp]

/-- C7: on a non-empty entry collection the export is the fixed header
followed by exactly one specification row per entry, joined by newlines in
the insertion order of the collection. -/
theorem claim_C7_export_shape (timeEntries : List TimeEntry) (projects : List Project)
    (clients : List Client) (fmtDate : Nat → String) (numToStr : ℚ → String)
    (h : timeEntries ≠ []) :
    exportToCSV timeEntries projects clients fmtDate numToStr =
      some ("Date,Client,Project,Duration (hours),Rate,Total,Status" ++ "\n" ++
        String.intercalate "\n"
          (timeEntries.map (csvRowSpec projects clients fmtDate numToStr))) := by
  unfold exportToCSV
  rw [if_neg (by simpa using h)]
  have hfun : csvRow projects clients fmtDate numToStr =
      csvRowSpec projects clients fmtDate numToStr :=
    funext (csvRow_eq_csvRowSpec projects clients fmtDate numToStr)
  rw [hfun]
  rfl

/-- Witness for C7 on a single dangling entry with constant platform
formatters. -/
theorem claim_C7_export_shape_witness :
    exportToCSV
      [{ id := 3, projectId := 2, duration := 125, date := 3, status := .completed }]
      [] [] (fun _ => "1/1/2026") (fun _ => "0") =
      some ("Date,Client,Project,Duration (hours),Rate,Total,Status" ++ "\n" ++
        String.intercalate "\n"
          ([{ id := 3, projectId := 2, duration := 125, date := 3, status := .completed }].map
            (csvRowSpec [] [] (fun _ => "1/1/2026") (fun _ => "0")))) :=
  claim_C7_export_shape _ [] [] _ _ (by simp)

/-- C8 fails on the code as stated: when the clients blob parses and the
projects blob then fails to parse, loadData reports the error but the
clients collection is already loaded, hence not at its default. -/
theorem claim_C8_counterexample :
    (loadData false (.good [{ id := 1, name := "Acme", createdAt := 1 }]) .bad .absent
        .absent .absent 0).errorShown = true ∧
    (loadData false (.good [{ id := 1, name := "Acme", createdAt := 1 }]) .bad .absent
        .absent .absent 0).clients ≠ [] := by
  constructor
  · rfl
  · simp [loadData, Blob.getOr]

/-- C8 amended: a failing read leaves everything at defaults with the
error reported; a parse failure reports the error, keeps the collections
parsed before the failing blob at their loaded values and leaves the
failing collection and everything after it at defaults; the function is
total, so no load error crashes. -/
theorem claim_C8_amended_load (readFails : Bool) (cb : Blob (List Client))
    (pb : Blob (List Project)) (eb : Blob (List TimeEntry)) (ab : Blob Nat)
    (tb : Blob (Nat × Nat)) (now : Nat) :
    (readFails = true →
        loadData readFails cb pb eb ab tb now = { errorShown := true }) ∧
    (readFails = false → cb = .bad →
        loadData readFails cb pb eb ab tb now = { errorShown := true }) ∧
    (readFails = false → cb ≠ .bad → pb = .bad →
        loadData readFails cb pb eb ab tb now =
          { clients := cb.getOr [], errorShown := true }) ∧
    (readFails = false → cb ≠ .bad → pb ≠ .bad → eb = .bad →
        loadData readFails cb pb eb ab tb now =
          { clients := cb.getOr [], projects := pb.getOr [], errorShown := true }) ∧
    (readFails = false → cb ≠ .bad → pb ≠ .bad → eb ≠ .bad →
      ab ≠ .absent → tb ≠ .absent → (ab = .bad ∨ tb = .bad) →
        loadData readFails cb pb eb ab tb now =
          { clients := cb.getOr [], projects := pb.getOr [],
            timeEntries := eb.getOr [], errorShown := true }) := by
  refine ⟨fun h1 => ?_, fun h1 h2 => ?_, fun h1 h2 h3 => ?_, fun h1 h2 h3 h4 => ?_,
    fun h1 h2 h3 h4 h5 h6 h7 => ?_⟩
  · subst h1
    simp [loadData]
  · subst h1
    subst h2
    simp [loadData]
  · subst h1
    subst h3
    simp [loadData, h2]
  · subst h1
    subst h4
    simp [loadData, h2, h3]
  · subst h1
    rcases ab with _ | _ | av
    · exact absurd rfl h5
    · rcases tb with _ | _ | tv
      · exact absurd rfl h6
      · simp [loadData, h2, h3, h4]
      · simp [loadData, h2, h3, h4]
    · rcases tb with _ | _ | tv
      · exact absurd rfl h6
      · simp [loadData, h2, h3, h4]
      · rcases h7 with h | h <;> simp at h

/-- Witness for the amended C8 at the counterexample input: the clients
blob parses, the projects blob fails, and the loaded clients survive next
to the reported error. -/
theorem claim_C8_amended_load_witness :
    loadData false (.good [{ id := 1, name := "Acme", createdAt := 1 }]) .bad .absent
        .absent .absent 0 =
      { clients := [{ id := 1, name := "Acme", createdAt := 1 }], errorShown := true } := by
  have h := (claim_C8_amended_load false
      (.good [{ id := 1, name := "Acme", createdAt := 1 }]) .bad .absent .absent .absent
      0).2.2.1 rfl (by decide) rfl
  simpa [Blob.getOr] using h

/-- Witness for C10 at a concrete state with 10 accrued seconds. -/
theorem claim_C10_restart_discards_elapsed_witness :
    let s : AppSt :=
      { clients := [], projects := [], timeEntries := [], activeTimer := some 3,
        currentTime := 10, timerStartTime := some 0, appState := .active,
        backgroundStartTime := none }
    (startTimer s 3 555).timeEntries = [] ∧
    (startTimer s 3 555).currentTime = 0 ∧
    (startTimer s 3 555).activeTimer = some 3 := by
  have h := claim_C10_restart_discards_elapsed
    { clients := [], projects := [], timeEntries := [], activeTimer := some 3,
      currentTime := 10, timerStartTime := some 0, appState := .active,
      backgroundStartTime := none } 3 555 rfl (by decide)
  simpa using h

end Daybook
